import Mathlib

/-!
Verification of the LLM Router (`app/config.py`, `app/router_service.py`,
`app/openai_service.py`) against its natural-language specification.

The embedding is shallow: Python time (`time.time()`) is modelled as integer
instants, the mutable `RouterService` object as an explicit `RouterState`
record threaded through the functions, Python dicts as association lists,
and upstream HTTP calls as oracles passed in as function arguments.  The
`while` loop of `chat_completion` is modelled with fuel (the loop makes
progress on every iteration, so `services.length + 1` fuel is always
enough; running out of fuel yields `none`).
-/

namespace LLMRouter

/-- Instants of `time.time()`, modelled as integers (seconds). -/
abbrev Time := Int

/-- `ServiceConfig` from `app/config.py`: one configured backend.
`rate_limit_requests = none` means no rate limit configured. -/
structure ServiceConfig where
  name : String
  backend_type : String
  priority : Int
  rate_limit_requests : Option Int
  rate_limit_window : Int
  deriving DecidableEq

/-- `ServiceConfig.has_rate_limit` (config.py lines 54-56):
`rate_limit_requests is not None and rate_limit_requests > 0`. -/
def ServiceConfig.has_rate_limit (c : ServiceConfig) : Bool :=
  match c.rate_limit_requests with
  | none => false
  | some r => r > 0

/-- The trimming `while` loop of `_is_rate_limited` (router_service.py
lines 104-105): pop timestamps from the front while the front is
`<= window_start`. -/
def trimWindow (windowStart : Time) : List Time → List Time
  | [] => []
  | t :: ts => if t ≤ windowStart then trimWindow windowStart ts else t :: ts

/-- `RouterService._is_rate_limited` (router_service.py lines 83-114) acting
on one backend's timestamp deque: returns the verdict together with the
mutated (trimmed) deque.  With no configured policy it returns early,
leaving the deque untouched. -/
def isRateLimited (now : Time) (cfg : ServiceConfig) (timestamps : List Time) :
    Bool × List Time :=
  if cfg.has_rate_limit then
    let ts := trimWindow (now - cfg.rate_limit_window) timestamps
    (decide ((ts.length : Int) ≥ cfg.rate_limit_requests.getD 0), ts)
  else
    (false, timestamps)

/-- Per-service statistics dict entry (`router_service.py` line 73). -/
structure Stats where
  requests : Nat
  failures : Nat
  rate_limited : Nat
  deriving DecidableEq

/-- The mutable state of a `RouterService` instance (`__init__`,
router_service.py lines 36-81).  `services` is the list of configured
backends already sorted ascending by priority (the constructor sorts it
once and it is never reordered).  Dicts are association lists. -/
structure RouterState where
  services : List ServiceConfig
  request_count : Nat
  failover_count : Nat
  rate_limit_skips : Nat
  service_stats : List (String × Stats)
  request_timestamps : List (String × List Time)
  model_cache : List (String × List String)
  cache_last_updated : List (String × Time)
  cache_ttl : Time
  deriving DecidableEq

/-- Dict read with a default (defaultdict behaviour of
`request_timestamps`; for `service_stats` every service name is present
from construction, so the default is never observed there). -/
def lookupD {α : Type} (l : List (String × α)) (k : String) (d : α) : α :=
  (l.lookup k).getD d

/-- Dict write: replace the binding if the key is present, else append. -/
def updateAssoc {α : Type} : List (String × α) → String → α → List (String × α)
  | [], k, v => [(k, v)]
  | (k₁, v₁) :: rest, k, v =>
    if k₁ = k then (k, v) :: rest else (k₁, v₁) :: updateAssoc rest k v

/-- `self.service_stats[name][field] += 1` style update. -/
def bumpStat (st : RouterState) (name : String) (f : Stats → Stats) : RouterState :=
  { st with service_stats :=
      updateAssoc st.service_stats name (f (lookupD st.service_stats name ⟨0, 0, 0⟩)) }

/-- `RouterService._is_rate_limited` as it acts on the router state: when a
policy is configured it reads (creating if absent) and trims the backend's
deque in place; with no policy the state is untouched. -/
def isRateLimitedState (now : Time) (cfg : ServiceConfig) (st : RouterState) :
    Bool × RouterState :=
  if cfg.has_rate_limit then
    let p := isRateLimited now cfg (lookupD st.request_timestamps cfg.name [])
    (p.1, { st with request_timestamps := updateAssoc st.request_timestamps cfg.name p.2 })
  else
    (false, st)

/-- `RouterService._record_request` (router_service.py lines 116-119). -/
def recordRequest (st : RouterState) (name : String) (now : Time) : RouterState :=
  let ts := lookupD st.request_timestamps name [] ++ [now]
  { st with request_timestamps := updateAssoc st.request_timestamps name ts }

/-- `RouterService._service_supports_model` (router_service.py lines
140-153): with no cache entry the answer is optimistically `true`,
otherwise a membership test. -/
def serviceSupportsModel (cache : List (String × List String))
    (name modelId : String) : Bool :=
  match cache.lookup name with
  | none => true
  | some ids => ids.contains modelId

/-- Python `str.strip()` whitespace (ASCII). -/
def pyIsSpace (c : Char) : Bool :=
  c = ' ' || c = '\t' || c = '\n' || c = '\r' || c = '\x0b' || c = '\x0c'

/-- Drop leading whitespace from a character list. -/
def dropSpaces : List Char → List Char
  | [] => []
  | c :: cs => if pyIsSpace c then dropSpaces cs else c :: cs

/-- Python `str.strip()`: remove leading and trailing whitespace. -/
def pyStrip (s : String) : String :=
  String.mk ((dropSpaces (dropSpaces s.toList).reverse).reverse)

/-- Whether the first list is an initial segment of the second. -/
def startsWithChars : List Char → List Char → Bool
  | [], _ => true
  | p :: ps, c :: cs => p = c && startsWithChars ps cs
  | _ :: _, [] => false

/-- Python `s.startswith(t)`. -/
def strStartsWith (s t : String) : Bool :=
  startsWithChars t.toList s.toList

/-- Python `s[n:]` (drop the first `n` characters). -/
def strDrop (s : String) (n : Nat) : String :=
  String.mk (s.toList.drop n)

/-- Python `s.split("|")`. -/
def splitOnPipe : List Char → List Char → List String
  | acc, [] => [String.mk acc.reverse]
  | acc, '|' :: cs => String.mk acc.reverse :: splitOnPipe [] cs
  | acc, c :: cs => splitOnPipe (c :: acc) cs

/-- `RouterService._parse_model_options` (router_service.py lines 155-165):
split the requested model string on `|` and trim each option. -/
def parseModelOptions (s : String) : List String :=
  (splitOnPipe [] s.toList).map pyStrip

/-- `RouterService._get_best_model_for_service` (router_service.py lines
167-181): first option of the chain the service supports. -/
def getBestModelForService (cache : List (String × List String))
    (name : String) (options : List String) : Option String :=
  options.find? (fun m => serviceSupportsModel cache name m)

/-- One entry of a backend's `/models` listing (the fields the code
touches: `model.get("id", "")` plus the static catalog fields). -/
structure ModelEntry where
  id : String
  object : String
  created : Time
  owned_by : String
  deriving DecidableEq

/-- `RouterService._update_model_cache` (router_service.py lines 121-132):
store ids of the listed models (entries with a falsy id dropped) and stamp
the refresh instant. -/
def updateModelCache (st : RouterState) (name : String)
    (models : List ModelEntry) (now : Time) : RouterState :=
  let ids := (models.filter (fun m => m.id ≠ "")).map (fun m => m.id)
  { st with
    model_cache := updateAssoc st.model_cache name ids,
    cache_last_updated := updateAssoc st.cache_last_updated name now }

/-- `RouterService._is_cache_valid` (router_service.py lines 134-138). -/
def isCacheValid (now : Time) (st : RouterState) (name : String) : Bool :=
  match st.cache_last_updated.lookup name with
  | none => false
  | some t => now - t < st.cache_ttl

/-- `RouterService._refresh_stale_caches` (router_service.py lines
183-196).  The model-listing call is an oracle: `some models` is a
successful listing, `none` an exception (swallowed, cache left as is). -/
def refreshStaleCaches (listModelsOracle : String → Option (List ModelEntry))
    (now : Time) : RouterState → List ServiceConfig → RouterState
  | st, [] => st
  | st, cfg :: rest =>
    let st₁ :=
      if isCacheValid now st cfg.name then st
      else
        match listModelsOracle cfg.name with
        | some models => updateModelCache st cfg.name models now
        | none => st
    refreshStaleCaches listModelsOracle now st₁ rest

/-- A `fastapi.HTTPException` as the router raises and propagates it:
status code, the `error.type` tag, the `error.message` text, and (for the
two router-generated errors) the `attempted_services`/`total_services`
counts carried in the detail. -/
structure HTTPError where
  status : Int
  errType : String
  message : String
  counts : Option (Nat × Nat) := none
  deriving DecidableEq

/-- The outcome of one upstream `service.chat_completion(request)` call,
supplied as an oracle: success, an `HTTPException` from the adapter, or an
unexpected exception carrying its message. -/
inductive CallResult where
  | success : CallResult
  | httpError : HTTPError → CallResult
  | otherError : String → CallResult
  deriving DecidableEq

/-- The `response.router` metadata attached on success
(router_service.py lines 320-329). -/
structure RouterResult where
  service : String
  attempt : Nat
  backend_type : String
  requested_model : String
  actual_model : String
  model_options : List String
  deriving DecidableEq

/-- The HTTP 429 raised when every remaining backend is rate limited
(router_service.py lines 283-293). -/
def rateLimitExceededError (attempted total : Nat) : HTTPError :=
  { status := 429, errType := "rate_limit_exceeded",
    message := "All configured services are rate limited",
    counts := some (attempted, total) }

/-- The generic HTTP 503 raised when no failure was ever recorded
(router_service.py lines 379-389). -/
def serviceUnavailableError (attempted total : Nat) : HTTPError :=
  { status := 503, errType := "service_unavailable",
    message := "All configured services are unavailable",
    counts := some (attempted, total) }

/-- End of `chat_completion` (router_service.py lines 372-389): raise the
last recorded exception, else the generic 503. -/
def finalRaise (st : RouterState) (attempted : List String)
    (lastExc : Option HTTPError) : RouterState × (RouterResult ⊕ HTTPError) :=
  match lastExc with
  | some e => (st, Sum.inr e)
  | none => (st, Sum.inr (serviceUnavailableError attempted.length st.services.length))

/-- The selection scan of `chat_completion` (router_service.py lines
238-268): walk the services in stored (ascending-priority) order; skip
already-attempted ones; skip rate-limited ones, bumping the per-service
`rate_limited` stat and — only while the attempted set is still empty —
the global `rate_limit_skips` counter; mark capability-disqualified ones
attempted; stop at the first survivor, returning its index, name and
resolved concrete model. -/
def scanServices (now : Time) (options : List String) :
    RouterState → List String → Nat → List ServiceConfig →
    RouterState × List String × Option (Nat × String × String)
  | st, attempted, _, [] => (st, attempted, none)
  | st, attempted, i, cfg :: rest =>
    if attempted.contains cfg.name then
      scanServices now options st attempted (i + 1) rest
    else
      let p := isRateLimitedState now cfg st
      if p.1 then
        let st₁ := bumpStat p.2 cfg.name (fun s => { s with rate_limited := s.rate_limited + 1 })
        let st₂ :=
          if attempted.length = 0 then
            { st₁ with rate_limit_skips := st₁.rate_limit_skips + 1 }
          else st₁
        scanServices now options st₂ attempted (i + 1) rest
      else
        match getBestModelForService p.2.model_cache cfg.name options with
        | none => scanServices now options p.2 (cfg.name :: attempted) (i + 1) rest
        | some m => (p.2, attempted, some (i, cfg.name, m))

/-- The all-rate-limited probe of `chat_completion` (router_service.py
lines 272-279): scan the services again, and report `true` iff every
non-attempted one is currently rate limited (each probe trims that
backend's window, as in the code). -/
def allRateLimitedCheck (now : Time) :
    RouterState → List String → List ServiceConfig → Bool × RouterState
  | st, _, [] => (true, st)
  | st, attempted, cfg :: rest =>
    if attempted.contains cfg.name then allRateLimitedCheck now st attempted rest
    else
      let p := isRateLimitedState now cfg st
      if p.1 then allRateLimitedCheck now p.2 attempted rest
      else (false, p.2)

/-- Backend type read off the services list for the router metadata
(`self.service_configs[selected_index].backend_type`); the index always
comes from the scan, so the fallback branch is unreachable. -/
def backendTypeAt (services : List ServiceConfig) (i : Nat) : String :=
  match services.get? i with
  | some c => c.backend_type
  | none => "custom"

/-- The `while` loop of `chat_completion` (router_service.py lines
231-389), with fuel.  `call` is the upstream chat-completion oracle
(service name and concrete model to outcome); `times k` supplies the
instants of iteration `k`: `.1` for the selection scan and the request
recording, `.2` for the later all-rate-limited probe (real time advances
between the two).  Returns `none` only when out of fuel. -/
def chatLoop (call : String → String → CallResult) (times : Nat → Time × Time)
    (options : List String) (reqModel : String) :
    Nat → Nat → RouterState → List String → Option HTTPError →
    Option (RouterState × (RouterResult ⊕ HTTPError))
  | 0, _, _, _, _ => none
  | fuel + 1, k, st, attempted, lastExc =>
    if attempted.length < st.services.length then
      let scan := scanServices (times k).1 options st attempted 0 st.services
      match scan.2.2 with
      | none =>
        let chk := allRateLimitedCheck (times k).2 scan.1 scan.2.1 scan.1.services
        if chk.1 then
          some (chk.2, Sum.inr (rateLimitExceededError scan.2.1.length scan.1.services.length))
        else
          some (finalRaise chk.2 scan.2.1 lastExc)
      | some (idx, name, model) =>
        let attemptNumber := scan.2.1.length + 1
        let st₁ := recordRequest scan.1 name (times k).1
        let st₂ := bumpStat st₁ name (fun s => { s with requests := s.requests + 1 })
        match call name model with
        | CallResult.success =>
          some (st₂, Sum.inl
            { service := name, attempt := attemptNumber,
              backend_type := backendTypeAt st₂.services idx,
              requested_model := reqModel, actual_model := model,
              model_options := options })
        | CallResult.httpError e =>
          let st₃ := bumpStat st₂ name (fun s => { s with failures := s.failures + 1 })
          let attempted₁ := name :: scan.2.1
          let st₄ :=
            if attempted₁.length < st₃.services.length then
              { st₃ with failover_count := st₃.failover_count + 1 }
            else st₃
          chatLoop call times options reqModel fuel (k + 1) st₄ attempted₁ (some e)
        | CallResult.otherError msg =>
          let e : HTTPError :=
            { status := 500, errType := "service_error",
              message := "Service " ++ name ++ " failed: " ++ msg }
          let st₃ := bumpStat st₂ name (fun s => { s with failures := s.failures + 1 })
          let attempted₁ := name :: scan.2.1
          let st₄ :=
            if attempted₁.length < st₃.services.length then
              { st₃ with failover_count := st₃.failover_count + 1 }
            else st₃
          chatLoop call times options reqModel fuel (k + 1) st₄ attempted₁ (some e)
    else
      some (finalRaise st attempted lastExc)

/-- `RouterService.chat_completion` (router_service.py lines 213-389):
bump the request counter, parse the fallback chain, refresh stale caches,
then run the selection/failover loop with fresh per-request attempt
state.  Fuel `services.length + 1` always suffices. -/
def chatCompletion (call : String → String → CallResult)
    (listModelsOracle : String → Option (List ModelEntry))
    (times : Nat → Time × Time) (st : RouterState) (reqModel : String) :
    Option (RouterState × (RouterResult ⊕ HTTPError)) :=
  let st₁ := { st with request_count := st.request_count + 1 }
  let options := parseModelOptions reqModel
  let st₂ := refreshStaleCaches listModelsOracle (times 0).1 st₁ st₁.services
  chatLoop call times options reqModel (st₂.services.length + 1) 0 st₂ [] none

/-- The state updates of one failed attempt, as `chat_completion` performs
them in order: record the request timestamp, bump the backend's `requests`
statistic, bump its `failures` statistic. -/
def failStep (st : RouterState) (name : String) (now : Time) : RouterState :=
  bumpStat (bumpStat (recordRequest st name now) name
      (fun s => { s with requests := s.requests + 1 })) name
    (fun s => { s with failures := s.failures + 1 })

/-- The failover counter bump. -/
def failoverStep (st : RouterState) : RouterState :=
  { st with failover_count := st.failover_count + 1 }

/-- `RouterService.reset_stats` (router_service.py lines 576-587): zero the
three global counters, rebuild the per-service stats dict from the
services list, and clear every existing timestamp deque in place (keys
kept). -/
def resetStats (st : RouterState) : RouterState :=
  { st with
    request_count := 0,
    failover_count := 0,
    rate_limit_skips := 0,
    service_stats := st.services.map (fun c => (c.name, ⟨0, 0, 0⟩)),
    request_timestamps := st.request_timestamps.map (fun p => (p.1, [])) }

/-- `RouterService.__init__` (router_service.py lines 36-81): services
sorted ascending by priority (stable, like Python `sorted`), zeroed
counters and per-service stats, empty windows and caches, TTL 300s. -/
def initRouter (configs : List ServiceConfig) : RouterState :=
  let sorted := configs.mergeSort (fun a b => a.priority ≤ b.priority)
  { services := sorted,
    request_count := 0,
    failover_count := 0,
    rate_limit_skips := 0,
    service_stats := sorted.map (fun c => (c.name, ⟨0, 0, 0⟩)),
    request_timestamps := [],
    model_cache := [],
    cache_last_updated := [],
    cache_ttl := 300 }

/-- Whether a backend reads as rate limited against a given state at a
given instant, without the state mutation — the specification-level view
used to phrase the selection claims. -/
def limitedNow (now : Time) (st : RouterState) (cfg : ServiceConfig) : Bool :=
  (isRateLimited now cfg (lookupD st.request_timestamps cfg.name [])).1

/-- Specification-level eligibility of one backend in the selection scan:
not yet attempted, not currently rate limited, and supporting at least one
option of the fallback chain. -/
def eligible (now : Time) (st : RouterState) (attempted : List String)
    (options : List String) (cfg : ServiceConfig) : Bool :=
  !(attempted.contains cfg.name) && !(limitedNow now st cfg) &&
    (getBestModelForService st.model_cache cfg.name options).isSome

/-- Specification-level selection: the first eligible backend in stored
(ascending-priority) order, with the first chain option its cache
supports. -/
def selectionSpec (now : Time) (st : RouterState) (attempted : List String)
    (options : List String) : Option (Nat × String × String) :=
  match st.services.enum.find? (fun p => eligible now st attempted options p.2) with
  | none => none
  | some (i, cfg) =>
    (getBestModelForService st.model_cache cfg.name options).map
      (fun m => (i, cfg.name, m))

/-- The parsed JSON body of a backend's `GET /models` response. -/
structure ModelsBody where
  object : String
  data : List ModelEntry
  deriving DecidableEq

/-- `OpenAIService._get_fallback_models` (openai_service.py lines 385-421):
the static per-backend-type default catalog, stamped with the current
instant. -/
def getFallbackModels (backend_type : String) (now : Time) : ModelsBody :=
  if backend_type = "openai" then
    ⟨"list", [⟨"gpt-4", "model", now, "openai"⟩,
              ⟨"gpt-4-turbo", "model", now, "openai"⟩,
              ⟨"gpt-3.5-turbo", "model", now, "openai"⟩]⟩
  else if backend_type = "cerebras" then
    ⟨"list", [⟨"llama3.1-8b", "model", now, "cerebras"⟩,
              ⟨"llama3.1-70b", "model", now, "cerebras"⟩]⟩
  else if backend_type = "deepinfra" then
    ⟨"list", [⟨"Qwen/Qwen3-Coder-480B-A35B-Instruct-Turbo", "model", now, "deepinfra"⟩,
              ⟨"Qwen/Qwen3-Coder-480B-A35B-Instruct", "model", now, "deepinfra"⟩,
              ⟨"Qwen/Qwen3-30B-A3B", "model", now, "deepinfra"⟩,
              ⟨"Qwen/Qwen3-235B-A22B-Thinking-2507", "model", now, "deepinfra"⟩]⟩
  else if backend_type = "ollama" then
    ⟨"list", [⟨"llama-2-7b-chat", "model", now, "local"⟩,
              ⟨"llama-2-13b-chat", "model", now, "local"⟩,
              ⟨"mistral-7b-instruct", "model", now, "local"⟩]⟩
  else
    ⟨"list", [⟨"default", "model", now, "custom"⟩]⟩

/-- The outcome of the one HTTP GET issued by `list_models`: a response
with a status and parsed body, a timeout, or a connection error (the two
exception types the code catches). -/
inductive HttpOutcome where
  | ok : Int → ModelsBody → HttpOutcome
  | timeout : HttpOutcome
  | connectionError : HttpOutcome
  deriving DecidableEq

/-- `OpenAIService.list_models` (openai_service.py lines 365-383): return
the body only on HTTP 200; on any non-200 status, timeout or connection
error fall back to the static catalog.  The function is total — this
operation never raises. -/
def listModels (backend_type : String) (now : Time) (outcome : HttpOutcome) :
    ModelsBody :=
  match outcome with
  | HttpOutcome.ok status body =>
    if status = 200 then body else getFallbackModels backend_type now
  | HttpOutcome.timeout => getFallbackModels backend_type now
  | HttpOutcome.connectionError => getFallbackModels backend_type now

/-! ### JSON values, parsing and serialization

A model of the JSON fragment the streaming transcoder manipulates via
`json.loads` / `json.dumps`: numbers are integers (floating-point JSON
numbers are outside the model; none of the verified inputs contain
them). -/

/-- A JSON value.  Objects keep insertion order with unique keys, as a
Python dict does. -/
inductive JVal where
  | null : JVal
  | bool : Bool → JVal
  | num : Int → JVal
  | str : String → JVal
  | arr : List JVal → JVal
  | obj : List (String × JVal) → JVal

/-- Whether a JSON value is `null` (`v is None`). -/
def jIsNull : JVal → Bool
  | JVal.null => true
  | _ => false

/-- Field access on a JSON object (`d.get(k)`), `none` off objects. -/
def jGet (v : JVal) (k : String) : Option JVal :=
  match v with
  | JVal.obj fs => fs.lookup k
  | _ => none

/-- `d.get(k, default)`. -/
def jGetD (v : JVal) (k : String) (d : JVal) : JVal :=
  (jGet v k).getD d

/-- The elements of a JSON array, `[]` off arrays. -/
def jArr (v : JVal) : List JVal :=
  match v with
  | JVal.arr xs => xs
  | _ => []

/-- Python truthiness of a JSON value. -/
def jTruthy : JVal → Bool
  | JVal.null => false
  | JVal.bool b => b
  | JVal.num n => n ≠ 0
  | JVal.str s => s ≠ ""
  | JVal.arr xs => !xs.isEmpty
  | JVal.obj fs => !fs.isEmpty

/-- Skip JSON whitespace. -/
def skipWs : List Char → List Char
  | [] => []
  | c :: cs => if c = ' ' || c = '\t' || c = '\n' || c = '\r' then skipWs cs else c :: cs

/-- Value of one hex digit. -/
def hexVal (c : Char) : Option Nat :=
  if c.isDigit then some (c.toNat - 48)
  else if 'a' ≤ c && c ≤ 'f' then some (c.toNat - 87)
  else if 'A' ≤ c && c ≤ 'F' then some (c.toNat - 55)
  else none

/-- Body of a JSON string literal after the opening quote: consume up to
the closing quote, decoding escapes (lone `\u` code units taken at face
value). -/
def parseStringChars : List Char → List Char → Option (String × List Char)
  | _, [] => none
  | acc, '"' :: rest => some (String.mk acc.reverse, rest)
  | acc, '\\' :: '"' :: rest => parseStringChars ('"' :: acc) rest
  | acc, '\\' :: '\\' :: rest => parseStringChars ('\\' :: acc) rest
  | acc, '\\' :: '/' :: rest => parseStringChars ('/' :: acc) rest
  | acc, '\\' :: 'b' :: rest => parseStringChars ('\x08' :: acc) rest
  | acc, '\\' :: 'f' :: rest => parseStringChars ('\x0c' :: acc) rest
  | acc, '\\' :: 'n' :: rest => parseStringChars ('\n' :: acc) rest
  | acc, '\\' :: 'r' :: rest => parseStringChars ('\r' :: acc) rest
  | acc, '\\' :: 't' :: rest => parseStringChars ('\t' :: acc) rest
  | acc, '\\' :: 'u' :: h₁ :: h₂ :: h₃ :: h₄ :: rest =>
    match hexVal h₁, hexVal h₂, hexVal h₃, hexVal h₄ with
    | some a, some b, some c, some d =>
      parseStringChars (Char.ofNat (a * 4096 + b * 256 + c * 16 + d) :: acc) rest
    | _, _, _, _ => none
  | _, '\\' :: _ => none
  | acc, c :: rest => parseStringChars (c :: acc) rest

/-- Consume a run of decimal digits onto an accumulator. -/
def parseDigits (acc : Int) : List Char → Int × List Char
  | [] => (acc, [])
  | c :: cs =>
    if c.isDigit then parseDigits (acc * 10 + ((c.toNat : Int) - 48)) cs
    else (acc, c :: cs)

/-- An optionally-signed JSON integer. -/
def parseIntTok : List Char → Option (Int × List Char)
  | '-' :: c :: cs =>
    if c.isDigit then
      let p := parseDigits ((c.toNat : Int) - 48) cs
      some (-p.1, p.2)
    else none
  | c :: cs =>
    if c.isDigit then
      let p := parseDigits ((c.toNat : Int) - 48) cs
      some (p.1, p.2)
    else none
  | [] => none

mutual

/-- One JSON value (fuelled recursive-descent `json.loads`). -/
def parseValue : Nat → List Char → Option (JVal × List Char)
  | 0, _ => none
  | fuel + 1, cs =>
    match skipWs cs with
    | '"' :: rest => (parseStringChars [] rest).map (fun p => (JVal.str p.1, p.2))
    | '\x7b' :: rest =>
      match skipWs rest with
      | '\x7d' :: rest₁ => some (JVal.obj [], rest₁)
      | rest₁ => parseMembers fuel [] rest₁
    | '[' :: rest =>
      match skipWs rest with
      | ']' :: rest₁ => some (JVal.arr [], rest₁)
      | rest₁ => parseElements fuel [] rest₁
    | 't' :: 'r' :: 'u' :: 'e' :: rest => some (JVal.bool true, rest)
    | 'f' :: 'a' :: 'l' :: 's' :: 'e' :: rest => some (JVal.bool false, rest)
    | 'n' :: 'u' :: 'l' :: 'l' :: rest => some (JVal.null, rest)
    | rest => (parseIntTok rest).map (fun p => (JVal.num p.1, p.2))

/-- Members of a JSON object after the opening brace (later duplicate keys
win, as in a Python dict). -/
def parseMembers : Nat → List (String × JVal) → List Char → Option (JVal × List Char)
  | 0, _, _ => none
  | fuel + 1, acc, cs =>
    match skipWs cs with
    | '"' :: rest =>
      match parseStringChars [] rest with
      | none => none
      | some (k, rest₁) =>
        match skipWs rest₁ with
        | ':' :: rest₂ =>
          match parseValue fuel rest₂ with
          | none => none
          | some (v, rest₃) =>
            match skipWs rest₃ with
            | ',' :: rest₄ => parseMembers fuel (updateAssoc acc k v) rest₄
            | '\x7d' :: rest₄ => some (JVal.obj (updateAssoc acc k v), rest₄)
            | _ => none
        | _ => none
    | _ => none

/-- Elements of a JSON array after the opening bracket. -/
def parseElements : Nat → List JVal → List Char → Option (JVal × List Char)
  | 0, _, _ => none
  | fuel + 1, acc, cs =>
    match parseValue fuel cs with
    | none => none
    | some (v, rest) =>
      match skipWs rest with
      | ',' :: rest₁ => parseElements fuel (v :: acc) rest₁
      | ']' :: rest₁ => some (JVal.arr (v :: acc).reverse, rest₁)
      | _ => none

end

/-- `json.loads`: parse a complete JSON document, rejecting trailing
garbage. -/
def parseJson (s : String) : Option JVal :=
  match parseValue (s.length + 2) s.toList with
  | some (v, rest) => if (skipWs rest).isEmpty then some v else none
  | none => none

/-- A hex digit as `json.dumps` renders it (lowercase). -/
def hexDigitChar (n : Nat) : Char :=
  if n < 10 then Char.ofNat (48 + n) else Char.ofNat (87 + n)

/-- Four hex digits of a code unit, as in a `\uXXXX` escape. -/
def hex4 (n : Nat) : String :=
  String.mk [hexDigitChar (n / 4096 % 16), hexDigitChar (n / 256 % 16),
             hexDigitChar (n / 16 % 16), hexDigitChar (n % 16)]

/-- One character escaped as `json.dumps` (ensure_ascii) renders it:
everything outside printable ASCII becomes an escape. -/
def escapeChar (c : Char) : String :=
  if c = '"' then "\\\""
  else if c = '\\' then "\\\\"
  else if c = '\n' then "\\n"
  else if c = '\r' then "\\r"
  else if c = '\t' then "\\t"
  else if c = '\x08' then "\\b"
  else if c = '\x0c' then "\\f"
  else if c.toNat < 32 || c.toNat > 126 then
    if c.toNat < 65536 then "\\u" ++ hex4 c.toNat
    else "\\u" ++ hex4 (55296 + (c.toNat - 65536) / 1024) ++
         "\\u" ++ hex4 (56320 + (c.toNat - 65536) % 1024)
  else String.singleton c

/-- A JSON string literal as `json.dumps` renders it. -/
def escapeString (s : String) : String :=
  "\"" ++ String.join (s.toList.map escapeChar) ++ "\""

/-- `json.dumps` with the default separators `", "` and `": "` (fuelled
recursion over the value; every call site supplies ample fuel). -/
def dumpsJson : Nat → JVal → String
  | _, JVal.null => "null"
  | _, JVal.bool b => if b then "true" else "false"
  | _, JVal.num n => toString n
  | _, JVal.str s => escapeString s
  | 0, JVal.arr _ => ""
  | 0, JVal.obj _ => ""
  | fuel + 1, JVal.arr xs =>
    "[" ++ String.intercalate ", " (xs.map (dumpsJson fuel)) ++ "]"
  | fuel + 1, JVal.obj fs =>
    "\x7b" ++
      String.intercalate ", "
        (fs.map (fun p => escapeString p.1 ++ ": " ++ dumpsJson fuel p.2)) ++
    "\x7d"

/-- One choice of the canonical streaming chunk, already in serialized
field order.  Modelled from the spec: the `ChoiceDelta` model class is
referenced by the source but its declaration is missing from
`app/models.py`; per §4.5 of the spec a choice carries `index`, the
filtered `delta` object, and `finish_reason` resolved from
`finish_reason`/`stop_reason` and dropped when null (serialization with
`exclude_none`).  The delta/text fallback and null filtering follow
openai_service.py lines 326-343. -/
def transformChoice (i : Nat) (choice : JVal) : JVal :=
  let delta₀ := jGetD choice "delta" (JVal.obj [])
  let delta₁ :=
    if !jTruthy delta₀ && (jGet choice "text").isSome then
      JVal.obj [("content", jGetD choice "text" (JVal.str ""))]
    else delta₀
  let filtered :=
    match delta₁ with
    | JVal.obj fs => JVal.obj (fs.filter (fun p => !jIsNull p.2))
    | v => v
  let finishReason :=
    match jGet choice "finish_reason" with
    | some v => v
    | none => jGetD choice "stop_reason" JVal.null
  let base := [("index", JVal.num i), ("delta", filtered)]
  if jIsNull finishReason then JVal.obj base
  else JVal.obj (base ++ [("finish_reason", finishReason)])

/-- The usage block of a final chunk (openai_service.py lines 345-353),
in serialized field order. -/
def transformUsage (u : JVal) : JVal :=
  JVal.obj [("prompt_tokens", jGetD u "prompt_tokens" (JVal.num 0)),
            ("completion_tokens", jGetD u "completion_tokens" (JVal.num 0)),
            ("total_tokens", jGetD u "total_tokens" (JVal.num 0))]

/-- `OpenAIService._transform_stream_chunk` (openai_service.py lines
321-363) composed with `model_dump(exclude_none=True)`.  Modelled from
the spec: the `ChatCompletionStreamResponse` model class is absent from
`app/models.py`, so the canonical chunk field order
`id, object, created, model, choices, usage` follows §4.5 of the spec
and the sibling `ChatCompletionResponse` declaration; `usage` is omitted
when absent (`exclude_none`).  `freshId` stands for the random
`uuid.uuid4().hex` and `now` for `int(time.time())`, used only when the
upstream chunk lacks `id`/`created`. -/
def transformStreamChunk (chunkData : JVal) (model freshId : String)
    (now : Time) : JVal :=
  let choices := (jArr (jGetD chunkData "choices" (JVal.arr []))).enum.map
    (fun p => transformChoice p.1 p.2)
  let base := [("id", jGetD chunkData "id" (JVal.str ("chatcmpl-" ++ freshId))),
               ("object", JVal.str "chat.completion.chunk"),
               ("created", jGetD chunkData "created" (JVal.num now)),
               ("model", JVal.str model),
               ("choices", JVal.arr choices)]
  match jGet chunkData "usage" with
  | some u => if jTruthy u then JVal.obj (base ++ [("usage", transformUsage u)]) else JVal.obj base
  | none => JVal.obj base

/-- The SSE line loop of `OpenAIService._stream_chat_completion`
(openai_service.py lines 218-256) over the decoded upstream lines: ping
comments are forwarded with a blank line, `data: ` lines are stripped,
`[DONE]` is forwarded verbatim and terminates the stream, JSON chunks are
transformed and re-emitted as `data: <json>` frames, unparsable chunks
are dropped, empty upstream lines are forwarded as bare newlines. -/
def streamChatCompletionLines (model freshId : String) (now : Time) :
    List String → List String
  | [] => []
  | chunk :: rest =>
    if chunk = "" then
      "\n" :: streamChatCompletionLines model freshId now rest
    else
      let line := pyStrip chunk
      if strStartsWith line ": " then
        (line ++ "\n\n") :: streamChatCompletionLines model freshId now rest
      else if strStartsWith line "data: " then
        let dataContent := strDrop line 6
        if dataContent = "[DONE]" then
          ["data: [DONE]\n\n"]
        else
          match parseJson dataContent with
          | some chunkData =>
            ("data: " ++
                dumpsJson (dataContent.length + 8)
                  (transformStreamChunk chunkData model freshId now) ++
              "\n\n") ::
              streamChatCompletionLines model freshId now rest
          | none => streamChatCompletionLines model freshId now rest
      else
        streamChatCompletionLines model freshId now rest

/-- An emitted string that is an SSE frame (a `data: ` frame or a
forwarded keep-alive comment), as opposed to a forwarded bare blank
line. -/
def isSSEFrame (s : String) : Bool :=
  strStartsWith s "data: " || strStartsWith s ": "

/-- The trimming rule as the specification words it — removing the
timestamps strictly *older than* `policy.window` seconds, i.e. with
`t < now - window` — written out for comparison with the code's
`trimWindow`, which also removes a timestamp exactly `window` old
(`t ≤ now - window`). -/
def trimWindowSpecWords (windowStart : Time) : List Time → List Time
  | [] => []
  | t :: ts => if t < windowStart then trimWindowSpecWords windowStart ts else t :: ts

/-- `isLimited` as the specification words it: drop the timestamps
strictly older than the window, then compare the remaining count with
`maxRequests`. -/
def isLimitedSpecWords (now : Time) (cfg : ServiceConfig) (timestamps : List Time) :
    Bool :=
  if cfg.has_rate_limit then
    decide (((trimWindowSpecWords (now - cfg.rate_limit_window) timestamps).length : Int) ≥
      cfg.rate_limit_requests.getD 0)
  else
    false

/-- One full selection scan over the stored services, as `chat_completion`
performs it at the top of each loop round. -/
def scanOnce (now : Time) (options : List String) (st : RouterState)
    (attempted : List String) :
    RouterState × List String × Option (Nat × String × String) :=
  scanServices now options st attempted 0 st.services

/-- The update bumping a backend's `rate_limited` statistic
(`self.service_stats[name]["rate_limited"] += 1`). -/
def rlBump : Stats → Stats := fun s => { s with rate_limited := s.rate_limited + 1 }

/-! ### Concrete router states used to instantiate the theorems -/

/-- Two backends, the first supporting only `"b"`, the second only `"c"`;
caches fresh, no rate limits. -/
def chainExampleState : RouterState :=
  { services := [⟨"first", "openai", 0, none, 60⟩, ⟨"second", "openai", 1, none, 60⟩],
    request_count := 0, failover_count := 0, rate_limit_skips := 0,
    service_stats := [("first", ⟨0, 0, 0⟩), ("second", ⟨0, 0, 0⟩)],
    request_timestamps := [],
    model_cache := [("first", ["b"]), ("second", ["c"])],
    cache_last_updated := [("first", 100), ("second", 100)],
    cache_ttl := 300 }

/-- Three backends at priorities 0, 1, 2: `svc0` has a 1-request/60s
limit and a request recorded at instant 95 (so it is limited at instant
100), `svc1` and `svc2` have no limit; `svc1` supports `"m1"`; caches
fresh at instant 100. -/
def rateSkipExampleState : RouterState :=
  { services := [⟨"svc0", "openai", 0, some 1, 60⟩,
                 ⟨"svc1", "cerebras", 1, none, 60⟩,
                 ⟨"svc2", "ollama", 2, none, 60⟩],
    request_count := 0, failover_count := 0, rate_limit_skips := 0,
    service_stats := [("svc0", ⟨0, 0, 0⟩), ("svc1", ⟨0, 0, 0⟩), ("svc2", ⟨0, 0, 0⟩)],
    request_timestamps := [("svc0", [95])],
    model_cache := [("svc0", ["m1"]), ("svc1", ["m1"]), ("svc2", [])],
    cache_last_updated := [("svc0", 100), ("svc1", 100), ("svc2", 100)],
    cache_ttl := 300 }

/-- The upstream oracle for the rate-skip scenario: `svc1` succeeds,
anything else fails upstream. -/
def rateSkipCall : String → String → CallResult :=
  fun name _ =>
    if name = "svc1" then CallResult.success
    else CallResult.httpError ⟨500, "api_error", "boom", none⟩

/-- Two backends: `A` with a 1-request/60s limit and a request recorded at
instant 95 (limited at instant 100), `B` unlimited and failing upstream;
both caches fresh and supporting `"m"`. -/
def twoRoundExampleState : RouterState :=
  { services := [⟨"A", "openai", 0, some 1, 60⟩, ⟨"B", "openai", 1, none, 60⟩],
    request_count := 0, failover_count := 0, rate_limit_skips := 0,
    service_stats := [("A", ⟨0, 0, 0⟩), ("B", ⟨0, 0, 0⟩)],
    request_timestamps := [("A", [95])],
    model_cache := [("A", ["m"]), ("B", ["m"])],
    cache_last_updated := [("A", 100), ("B", 100)],
    cache_ttl := 300 }

/-- One backend with a 1-request/10s limit and a request recorded at
instant 0: limited at instant 5, no longer limited at instant 20. -/
def recoveryExampleState : RouterState :=
  { services := [⟨"A", "openai", 0, some 1, 10⟩],
    request_count := 0, failover_count := 0, rate_limit_skips := 0,
    service_stats := [("A", ⟨0, 0, 0⟩)],
    request_timestamps := [("A", [0])],
    model_cache := [("A", ["m"])],
    cache_last_updated := [("A", 5)],
    cache_ttl := 300 }

/-- Two unlimited backends, both supporting `"m"`, caches fresh at
instant 100. -/
def failAllExampleState : RouterState :=
  { services := [⟨"p", "openai", 0, none, 60⟩, ⟨"q", "ollama", 1, none, 60⟩],
    request_count := 0, failover_count := 0, rate_limit_skips := 0,
    service_stats := [("p", ⟨0, 0, 0⟩), ("q", ⟨0, 0, 0⟩)],
    request_timestamps := [],
    model_cache := [("p", ["m"]), ("q", ["m"])],
    cache_last_updated := [("p", 100), ("q", 100)],
    cache_ttl := 300 }

/-- A distinct upstream error per backend. -/
def failAllErr : String → HTTPError :=
  fun nm => ⟨502, "api_error", nm ++ " failed", none⟩

/-- An oracle on which every backend fails with its own upstream error. -/
def failAllCall : String → String → CallResult :=
  fun nm _ => CallResult.httpError (failAllErr nm)

/-! ## Theorems -/

set_option maxRecDepth 1000000

/-- On a sorted window, the code's front-trimming loop keeps exactly the
timestamps strictly newer than the cutoff. -/
theorem trimWindow_sorted_eq_filter (c : Time) :
    ∀ ts : List Time, List.Sorted (· ≤ ·) ts →
      trimWindow c ts = ts.filter (fun t => decide (c < t)) := by
  intro ts
  induction ts with
  | nil => intro _; simp [trimWindow]
  | cons t ts ih =>
    intro h
    rw [List.sorted_cons] at h
    by_cases htc : t ≤ c
    · have hnc : ¬ (c < t) := not_lt.mpr htc
      simp [trimWindow, htc, hnc, ih h.2]
    · have hct : c < t := lt_of_not_ge htc
      have hkeep : ts.filter (fun t => decide (c < t)) = ts := by
        refine List.filter_eq_self.mpr (fun b hb => ?_)
        simp only [decide_eq_true_eq]
        exact lt_of_lt_of_le hct (h.1 b hb)
      simp [trimWindow, htc, hct, hkeep]

/-- If every timestamp is at or before the cutoff, trimming empties the
window. -/
theorem trimWindow_all_le (c : Time) :
    ∀ ts : List Time, (∀ t ∈ ts, t ≤ c) → trimWindow c ts = [] := by
  intro ts
  induction ts with
  | nil => intro _; rfl
  | cons t ts ih =>
    intro h
    have ht : t ≤ c := h t (List.mem_cons_self t ts)
    simp only [trimWindow, if_pos ht]
    exact ih (fun s hs => h s (List.mem_cons_of_mem t hs))

/-- A configured limit is a positive `rate_limit_requests`. -/
theorem has_rate_limit_pos (cfg : ServiceConfig) (h : cfg.has_rate_limit = true) :
    ∃ r, cfg.rate_limit_requests = some r ∧ 0 < r := by
  unfold ServiceConfig.has_rate_limit at h
  cases hr : cfg.rate_limit_requests with
  | none => rw [hr] at h; cases h
  | some r =>
    rw [hr] at h
    simp only [decide_eq_true_eq] at h
    exact ⟨r, rfl, h⟩

/-- C2 (counterexample): at the window boundary the code and the claim's
wording disagree.  With a 1-request/60s policy, one timestamp recorded at
instant 0 and the query at instant 60, the recorded request is exactly 60
seconds old: it is not *older than* 60 seconds, so the claim's trimming
rule keeps it and predicts `isLimited = true`, but the code's trim uses
`timestamp <= now - window` and removes it, returning `false`. -/
theorem isLimited_boundary_counterexample :
    (isRateLimited 60 ⟨"svc", "openai", 0, some 1, 60⟩ [0]).1 = false ∧
    isLimitedSpecWords 60 ⟨"svc", "openai", 0, some 1, 60⟩ [0] = true := by
  decide

/-- C2 (amended): for a backend with a configured policy and a sorted
window, `isLimited` first removes from the front every timestamp at least
`policy.window` seconds old (`t ≤ now - window`, which includes every
strictly older one), and returns true iff the count of remaining
timestamps is at least `policy.maxRequests`; a backend with
`rate_limit_requests` absent or non-positive is never limited (and its
window is left untouched); and once every recorded timestamp is more than
`window` seconds in the past, `isLimited` is false again. -/
theorem isLimited_characterization (now : Time) (cfg : ServiceConfig)
    (ts : List Time) (hsorted : List.Sorted (· ≤ ·) ts) :
    (cfg.has_rate_limit = true →
      (isRateLimited now cfg ts).2 =
        ts.filter (fun t => decide (now - cfg.rate_limit_window < t)) ∧
      ((isRateLimited now cfg ts).1 = true ↔
        (((ts.filter (fun t => decide (now - cfg.rate_limit_window < t))).length : Int) ≥
          cfg.rate_limit_requests.getD 0))) ∧
    ((cfg.rate_limit_requests = none ∨ ∃ r, cfg.rate_limit_requests = some r ∧ r ≤ 0) →
      (isRateLimited now cfg ts).1 = false ∧ (isRateLimited now cfg ts).2 = ts) ∧
    ((∀ t ∈ ts, t + cfg.rate_limit_window < now) →
      (isRateLimited now cfg ts).1 = false) := by
  refine ⟨?_, ?_, ?_⟩
  · intro h
    have htrim := trimWindow_sorted_eq_filter (now - cfg.rate_limit_window) ts hsorted
    constructor
    · simp [isRateLimited, h, htrim]
    · simp [isRateLimited, h, htrim]
  · intro h
    have hno : cfg.has_rate_limit = false := by
      rcases h with h | ⟨r, hr, hle⟩
      · simp [ServiceConfig.has_rate_limit, h]
      · simp [ServiceConfig.has_rate_limit, hr]
        omega
    simp [isRateLimited, hno]
  · intro h
    by_cases hrl : cfg.has_rate_limit
    · obtain ⟨r, hr, hpos⟩ := has_rate_limit_pos cfg hrl
      have hempty : trimWindow (now - cfg.rate_limit_window) ts = [] := by
        refine trimWindow_all_le _ ts (fun t ht => ?_)
        exact le_sub_iff_add_le.mpr (h t ht).le
      simp [isRateLimited, hrl, hempty, hr]
      exact hpos
    · simp [isRateLimited, hrl]

/-- Recovery instance for `isLimited_characterization`: a 2-request/60s
backend with requests at instants 10 and 50 is no longer limited at
instant 200. -/
theorem isLimited_characterization_witness :
    (isRateLimited 200 ⟨"s", "openai", 0, some 2, 60⟩ [10, 50]).1 = false :=
  (isLimited_characterization 200 ⟨"s", "openai", 0, some 2, 60⟩ [10, 50]
    (by decide)).2.2 (by decide)

/-- C6: the capability query defaults to `true` when the backend has no
cache entry, and otherwise answers exactly membership of the model id in
the cached id set. -/
theorem supports_default_and_membership (cache : List (String × List String))
    (name modelId : String) :
    (cache.lookup name = none → serviceSupportsModel cache name modelId = true) ∧
    (∀ ids, cache.lookup name = some ids →
      (serviceSupportsModel cache name modelId = true ↔ modelId ∈ ids)) := by
  constructor
  · intro h
    simp [serviceSupportsModel, h]
  · intro ids h
    unfold serviceSupportsModel
    rw [h]
    exact List.elem_iff

/-- Membership instance for `supports_default_and_membership` on a
one-entry cache. -/
theorem supports_default_and_membership_witness :
    serviceSupportsModel [("a", ["x"])] "a" "x" = true ↔ "x" ∈ ["x"] :=
  (supports_default_and_membership [("a", ["x"])] "a" "x").2 ["x"] rfl

/-- C8: `list_models` returns the static per-backend-type catalog on a
timeout, a connection error, or any non-200 response; being a total
function into `ModelsBody`, the operation never raises. -/
theorem list_models_fallback (backend_type : String) (now : Time)
    (outcome : HttpOutcome)
    (h : ∀ s b, outcome = HttpOutcome.ok s b → s ≠ 200) :
    listModels backend_type now outcome = getFallbackModels backend_type now := by
  cases outcome with
  | ok s b => simp [listModels, h s b rfl]
  | timeout => rfl
  | connectionError => rfl

/-- Timeout instance for `list_models_fallback`. -/
theorem list_models_fallback_witness :
    listModels "openai" 5 HttpOutcome.timeout = getFallbackModels "openai" 5 :=
  list_models_fallback "openai" 5 HttpOutcome.timeout
    (by intro s b hh; cases hh)

/-- Looking anything up after every deque was cleared yields the empty
window. -/
theorem lookupD_cleared (l : List (String × List Time)) (nm : String) :
    lookupD (l.map (fun p => (p.1, ([] : List Time)))) nm [] = [] := by
  induction l with
  | nil => rfl
  | cons p rest ih =>
    by_cases h : nm == p.1
    · simp [lookupD, List.lookup, h]
    · simpa [lookupD, List.lookup, h] using ih

/-- C9: `resetStats` zeroes the three global counters, rebuilds every
per-backend statistic at zero, and empties every rate-limiter window,
while leaving the capability cache, its freshness stamps, the TTL and the
service descriptors untouched. -/
theorem reset_stats_frame (st : RouterState) :
    (resetStats st).request_count = 0 ∧
    (resetStats st).failover_count = 0 ∧
    (resetStats st).rate_limit_skips = 0 ∧
    (resetStats st).service_stats = st.services.map (fun c => (c.name, ⟨0, 0, 0⟩)) ∧
    (∀ nm, lookupD (resetStats st).request_timestamps nm [] = []) ∧
    (resetStats st).model_cache = st.model_cache ∧
    (resetStats st).cache_last_updated = st.cache_last_updated ∧
    (resetStats st).cache_ttl = st.cache_ttl ∧
    (resetStats st).services = st.services :=
  ⟨rfl, rfl, rfl, rfl, fun nm => lookupD_cleared st.request_timestamps nm,
   rfl, rfl, rfl, rfl⟩

/-- Writing a key then reading it back. -/
theorem lookup_updateAssoc_self {α : Type} (l : List (String × α)) (k : String) (v : α) :
    (updateAssoc l k v).lookup k = some v := by
  induction l with
  | nil => simp [updateAssoc, List.lookup]
  | cons p rest ih =>
    by_cases h : p.1 = k
    · simp [updateAssoc, h, List.lookup]
    · have hne : (k == p.1) = false := by
        simp only [beq_eq_false_iff_ne]
        exact fun hh => h hh.symm
      simp [updateAssoc, h, List.lookup, hne, ih]

/-- Writing one key leaves every other key's binding unchanged. -/
theorem lookup_updateAssoc_ne {α : Type} (l : List (String × α)) (k : String) (v : α)
    (k' : String) (h : k' ≠ k) :
    (updateAssoc l k v).lookup k' = l.lookup k' := by
  induction l with
  | nil =>
    have : (k' == k) = false := by simpa using h
    simp [updateAssoc, List.lookup, this]
  | cons p rest ih =>
    by_cases hp : p.1 = k
    · have : (k' == k) = false := by simpa using h
      subst hp
      simp [updateAssoc, List.lookup, this]
    · simp [updateAssoc, hp, List.lookup, ih]

/-- `_is_rate_limited` touches only the backend's timestamp deque: every
other state component is unchanged. -/
theorem isRateLimitedState_frame (now : Time) (cfg : ServiceConfig) (st : RouterState) :
    (isRateLimitedState now cfg st).2.services = st.services ∧
    (isRateLimitedState now cfg st).2.service_stats = st.service_stats ∧
    (isRateLimitedState now cfg st).2.rate_limit_skips = st.rate_limit_skips ∧
    (isRateLimitedState now cfg st).2.model_cache = st.model_cache ∧
    (isRateLimitedState now cfg st).2.request_count = st.request_count ∧
    (isRateLimitedState now cfg st).2.failover_count = st.failover_count := by
  unfold isRateLimitedState
  by_cases h : cfg.has_rate_limit <;> simp [h]

/-- The verdict of the stateful rate-limit probe is the pure one. -/
theorem isRateLimitedState_fst (now : Time) (cfg : ServiceConfig) (st : RouterState) :
    (isRateLimitedState now cfg st).1 = limitedNow now st cfg := by
  unfold isRateLimitedState limitedNow isRateLimited
  by_cases h : cfg.has_rate_limit <;> simp [h]

/-- The stateful probe changes no key other than the probed backend's. -/
theorem isRateLimitedState_lookup_ne (now : Time) (cfg : ServiceConfig)
    (st : RouterState) (nm : String) (h : nm ≠ cfg.name) :
    (isRateLimitedState now cfg st).2.request_timestamps.lookup nm =
      st.request_timestamps.lookup nm := by
  unfold isRateLimitedState
  by_cases hrl : cfg.has_rate_limit
  · simp only [hrl, if_true]
    exact lookup_updateAssoc_ne _ _ _ _ h
  · simp [hrl]

/-- A backend with a different name reads as limited in the mutated state
iff it did before the probe. -/
theorem limitedNow_after_probe (now t : Time) (cfg cfg' : ServiceConfig)
    (st : RouterState) (h : cfg'.name ≠ cfg.name) :
    limitedNow t (isRateLimitedState now cfg st).2 cfg' = limitedNow t st cfg' := by
  unfold limitedNow lookupD
  rw [isRateLimitedState_lookup_ne now cfg st cfg'.name h]

/-- C4: the global rate-limit-skip counter advances only while the
request's attempted set is still empty.  First conjunct: once anything has
been attempted, a whole scan pass leaves the counter unchanged.  Second
conjunct: on the first round (empty attempted set) each rate-limited
backend skipped adds exactly one to the counter (and one to its own
`rate_limited` statistic) before the scan continues.  Third conjunct: in
the concrete scenario of three backends at priorities 0, 1, 2 with backend
0 rate-limited and backend 1 supporting `"m1"`, one request for `"m1"`
selects backend 1 on attempt 1 and raises the counter by exactly 1. -/
theorem rate_limit_skips_first_round_only :
    (∀ (now : Time) (opts : List String) (st : RouterState) (att : List String)
        (i : Nat) (l : List ServiceConfig), att ≠ [] →
      (scanServices now opts st att i l).1.rate_limit_skips = st.rate_limit_skips) ∧
    (∀ (now : Time) (opts : List String) (st : RouterState) (i : Nat)
        (cfg : ServiceConfig) (rest : List ServiceConfig),
      (isRateLimitedState now cfg st).1 = true →
      scanServices now opts st [] i (cfg :: rest) =
        scanServices now opts
          { bumpStat (isRateLimitedState now cfg st).2 cfg.name rlBump with
            rate_limit_skips :=
              (bumpStat (isRateLimitedState now cfg st).2 cfg.name rlBump).rate_limit_skips + 1 }
          [] (i + 1) rest ∧
      (bumpStat (isRateLimitedState now cfg st).2 cfg.name rlBump).rate_limit_skips =
        st.rate_limit_skips) ∧
    (chatCompletion rateSkipCall (fun _ => none) (fun _ => (100, 100))
        rateSkipExampleState "m1").map
      (fun p => (p.1.rate_limit_skips, p.1.failover_count,
        lookupD p.1.service_stats "svc0" ⟨0, 0, 0⟩,
        match p.2 with
        | Sum.inl r => some (r.service, r.attempt, r.actual_model)
        | Sum.inr _ => none)) =
      some (1, 0, ⟨0, 0, 1⟩, some ("svc1", 1, "m1")) := by
  refine ⟨?_, ?_, ?_⟩
  · intro now opts st att i l hne
    induction l generalizing st att i with
    | nil => rfl
    | cons cfg rest ih =>
      by_cases hc : att.contains cfg.name
      · simp only [scanServices, hc, if_true]
        exact ih st att (i + 1) hne
      · simp only [scanServices, hc, Bool.false_eq_true, if_false]
        by_cases hlim : (isRateLimitedState now cfg st).1
        · have hlen : ¬ att.length = 0 := by
            simpa [List.length_eq_zero] using hne
          simp only [hlim, if_true, hlen, if_false]
          rw [ih _ att (i + 1) hne]
          simp [bumpStat, (isRateLimitedState_frame now cfg st).2.2.1]
        · simp only [hlim, Bool.false_eq_true, if_false]
          cases hbest : getBestModelForService
              (isRateLimitedState now cfg st).2.model_cache cfg.name opts with
          | none =>
            rw [ih _ (cfg.name :: att) (i + 1) (by simp)]
            exact (isRateLimitedState_frame now cfg st).2.2.1
          | some m =>
            exact (isRateLimitedState_frame now cfg st).2.2.1
  · intro now opts st i cfg rest hlim
    constructor
    · simp only [scanServices, List.contains, List.elem, Bool.false_eq_true, if_false,
        hlim, if_true, List.length_nil, if_pos rfl, rlBump]
      rfl
    · simp [bumpStat, (isRateLimitedState_frame now cfg st).2.2.1]
  · rfl

/-- Later-round instance for `rate_limit_skips_first_round_only`: with a
non-empty attempted set a full scan leaves the global skip counter
unchanged. -/
theorem rate_limit_skips_first_round_only_witness :
    (scanServices 100 ["m1"] rateSkipExampleState ["svc1"] 0
      rateSkipExampleState.services).1.rate_limit_skips =
      rateSkipExampleState.rate_limit_skips :=
  rate_limit_skips_first_round_only.1 100 ["m1"] rateSkipExampleState ["svc1"] 0
    rateSkipExampleState.services (by decide)

/-- C10: on every pass of the selection scan — later rounds included — a
rate-limited backend not yet in the attempted set has its per-service
`rate_limited` statistic bumped by exactly one, while the global skip
counter is bumped only when the attempted set is empty (first conjunct:
one scan step rewrites the state accordingly; the lookup conjunct shows
the per-service statistic at exactly old value + 1).  Second conjunct: in
the concrete two-backend scenario (`A` rate-limited with a 1/60s policy,
`B` failing upstream), a single request leaves `A.rate_limited = 2` —
one bump per round — while the global counter rose only to 1, and the
request surfaces the 429 rate-limit-exhaustion error. -/
theorem per_service_rate_limited_counts_every_round :
    (∀ (now : Time) (opts : List String) (st : RouterState) (att : List String)
        (i : Nat) (cfg : ServiceConfig) (rest : List ServiceConfig),
      att.contains cfg.name = false →
      (isRateLimitedState now cfg st).1 = true →
      scanServices now opts st att i (cfg :: rest) =
        scanServices now opts
          (if att.length = 0 then
            { bumpStat (isRateLimitedState now cfg st).2 cfg.name rlBump with
              rate_limit_skips :=
                (bumpStat (isRateLimitedState now cfg st).2 cfg.name rlBump).rate_limit_skips + 1 }
           else bumpStat (isRateLimitedState now cfg st).2 cfg.name rlBump)
          att (i + 1) rest ∧
      (bumpStat (isRateLimitedState now cfg st).2 cfg.name rlBump).service_stats.lookup cfg.name =
        some (rlBump (lookupD st.service_stats cfg.name ⟨0, 0, 0⟩))) ∧
    (chatCompletion (fun _ _ => CallResult.httpError ⟨502, "api_error", "bad", none⟩)
        (fun _ => none) (fun _ => (100, 100)) twoRoundExampleState "m").map
      (fun p => (p.1.rate_limit_skips,
        (lookupD p.1.service_stats "A" ⟨0, 0, 0⟩).rate_limited,
        match p.2 with
        | Sum.inl _ => none
        | Sum.inr e => some e)) =
      some (1, 2, some (rateLimitExceededError 1 2)) := by
  constructor
  · intro now opts st att i cfg rest hc hlim
    constructor
    · simp only [scanServices, hc, Bool.false_eq_true, if_false, hlim, if_true, rlBump]
      rfl
    · rw [bumpStat, (isRateLimitedState_frame now cfg st).2.1]
      exact lookup_updateAssoc_self _ _ _
  · rfl

/-- Single-step instance for `per_service_rate_limited_counts_every_round`
on the two-backend scenario with a non-empty attempted set. -/
theorem per_service_rate_limited_counts_every_round_witness :
    (bumpStat (isRateLimitedState 100 ⟨"A", "openai", 0, some 1, 60⟩
        twoRoundExampleState).2 "A" rlBump).service_stats.lookup "A" =
      some (rlBump (lookupD twoRoundExampleState.service_stats "A" ⟨0, 0, 0⟩)) :=
  (per_service_rate_limited_counts_every_round.1 100 ["m"] twoRoundExampleState
    ["B"] 0 ⟨"A", "openai", 0, some 1, 60⟩ [⟨"B", "openai", 1, none, 60⟩]
    (by decide) (by decide)).2

/-- `limitedNow` reads only the timestamp windows. -/
theorem limitedNow_congr (now : Time) (cfg : ServiceConfig) (st st' : RouterState)
    (h : st.request_timestamps = st'.request_timestamps) :
    limitedNow now st cfg = limitedNow now st' cfg := by
  unfold limitedNow lookupD
  rw [h]

/-- A member of the tail has a name different from the head's, when the
mapped names are nodup. -/
theorem name_ne_of_nodup (cfg : ServiceConfig) (rest : List ServiceConfig)
    (hnd : ((cfg :: rest).map (fun c => c.name)).Nodup) :
    ∀ cfg' ∈ rest, cfg'.name ≠ cfg.name := by
  intro cfg' hmem heq
  rw [List.map_cons, List.nodup_cons] at hnd
  exact hnd.1 (heq ▸ List.mem_map_of_mem (fun c => c.name) hmem)

/-- The selection scan, run from any suffix of the services with its
running state and attempted set, selects exactly what the
specification-level first-eligible search (phrased against the *initial*
state and attempted set) predicts.  The invariants carried: the cache is
unchanged, rate-limit verdicts are unchanged, the attempted set only grew
by capability-disqualified names. -/
theorem scanServices_selection_aux (now : Time) (opts : List String)
    (st₀ : RouterState) (att₀ : List String) :
    ∀ (l : List ServiceConfig) (i : Nat) (st : RouterState) (att : List String),
      st.model_cache = st₀.model_cache →
      (∀ cfg ∈ l, limitedNow now st cfg = limitedNow now st₀ cfg) →
      (∀ nm, nm ∈ att₀ → nm ∈ att) →
      (∀ nm ∈ att, nm ∈ att₀ ∨ getBestModelForService st₀.model_cache nm opts = none) →
      (l.map (fun c => c.name)).Nodup →
      (scanServices now opts st att i l).2.2 =
        ((List.enumFrom i l).find? (fun p => eligible now st₀ att₀ opts p.2)).bind
          (fun p => (getBestModelForService st₀.model_cache p.2.name opts).map
            (fun m => (p.1, p.2.name, m))) := by
  intro l
  induction l with
  | nil => intro i st att _ _ _ _ _; rfl
  | cons cfg rest ih =>
    intro i st att hcache hlim hsub hatt hnd
    have hndtail : (rest.map (fun c => c.name)).Nodup := by
      rw [List.map_cons, List.nodup_cons] at hnd
      exact hnd.2
    have hne : ∀ cfg' ∈ rest, cfg'.name ≠ cfg.name := name_ne_of_nodup cfg rest hnd
    by_cases hc : att.contains cfg.name
    · -- already attempted: both sides skip this backend
      have hmem : cfg.name ∈ att := List.elem_iff.mp hc
      have hel : eligible now st₀ att₀ opts cfg = false := by
        rcases hatt cfg.name hmem with h₀ | h₀
        · have : att₀.contains cfg.name = true := List.elem_iff.mpr h₀
          simp only [eligible, this, Bool.not_true, Bool.false_and]
        · simp only [eligible, h₀, Option.isSome_none, Bool.and_false]
      simp only [scanServices, hc, if_true, List.enumFrom, List.find?, hel]
      exact ih (i + 1) st att hcache (fun c hcm => hlim c (List.mem_cons_of_mem cfg hcm))
        hsub hatt hndtail
    · have hcmem : cfg.name ∉ att := fun hmem => hc (List.elem_iff.mpr hmem)
      have hlimhead : (isRateLimitedState now cfg st).1 = limitedNow now st₀ cfg := by
        rw [isRateLimitedState_fst]
        exact hlim cfg (List.mem_cons_self cfg rest)
      by_cases hl : (isRateLimitedState now cfg st).1
      · -- rate limited: skipped without marking attempted
        have hel : eligible now st₀ att₀ opts cfg = false := by
          have hlt : limitedNow now st₀ cfg = true := by rw [← hlimhead]; exact hl
          simp only [eligible, hlt, Bool.not_true, Bool.and_false, Bool.false_and]
        simp only [scanServices, hc, Bool.false_eq_true, if_false, hl, if_true,
          List.enumFrom, List.find?, hel]
        set stp := isRateLimitedState now cfg st with hstp
        set st₂ :=
          if att.length = 0 then
            { bumpStat stp.2 cfg.name (fun s => { s with rate_limited := s.rate_limited + 1 }) with
              rate_limit_skips :=
                (bumpStat stp.2 cfg.name
                  (fun s => { s with rate_limited := s.rate_limited + 1 })).rate_limit_skips + 1 }
          else bumpStat stp.2 cfg.name (fun s => { s with rate_limited := s.rate_limited + 1 })
          with hst₂
        have hts : st₂.request_timestamps = stp.2.request_timestamps := by
          rw [hst₂]; split <;> rfl
        have hmc : st₂.model_cache = st₀.model_cache := by
          have h1 : st₂.model_cache = stp.2.model_cache := by rw [hst₂]; split <;> rfl
          rw [h1, hstp, (isRateLimitedState_frame now cfg st).2.2.2.1, hcache]
        refine ih (i + 1) st₂ att hmc ?_ hsub hatt hndtail
        intro c hcm
        rw [limitedNow_congr now c st₂ stp.2 hts, hstp,
          limitedNow_after_probe now now cfg c st (hne c hcm)]
        exact hlim c (List.mem_cons_of_mem cfg hcm)
      · -- not limited: capability decides
        have hlimf : limitedNow now st₀ cfg = false := by
          rw [← hlimhead]
          cases hval : (isRateLimitedState now cfg st).1
          · rfl
          · exact absurd hval hl
        have hmcp : (isRateLimitedState now cfg st).2.model_cache = st₀.model_cache := by
          rw [(isRateLimitedState_frame now cfg st).2.2.2.1, hcache]
        cases hbest : getBestModelForService (isRateLimitedState now cfg st).2.model_cache
            cfg.name opts with
        | none =>
          have hbest₀ : getBestModelForService st₀.model_cache cfg.name opts = none := by
            rw [← hmcp]; exact hbest
          have hel : eligible now st₀ att₀ opts cfg = false := by
            simp [eligible, hbest₀]
          simp only [scanServices, hc, Bool.false_eq_true, if_false, hl, hbest,
            List.enumFrom, List.find?, hel]
          refine ih (i + 1) (isRateLimitedState now cfg st).2 (cfg.name :: att) hmcp ?_ ?_ ?_ hndtail
          · intro c hcm
            rw [limitedNow_after_probe now now cfg c st (hne c hcm)]
            exact hlim c (List.mem_cons_of_mem cfg hcm)
          · intro nm hnm
            exact List.mem_cons_of_mem cfg.name (hsub nm hnm)
          · intro nm hnm
            rcases List.mem_cons.mp hnm with h | h
            · right; rw [h]; exact hbest₀
            · exact hatt nm h
        | some m =>
          have hbest₀ : getBestModelForService st₀.model_cache cfg.name opts = some m := by
            rw [← hmcp]; exact hbest
          have hnatt₀ : att₀.contains cfg.name = false := by
            rcases hc₀ : att₀.contains cfg.name with _ | _
            · rfl
            · exact absurd (hsub cfg.name (List.elem_iff.mp hc₀)) hcmem
          have hel : eligible now st₀ att₀ opts cfg = true := by
            simp only [eligible, hnatt₀, hlimf, hbest₀, Bool.not_false, Bool.true_and,
              Option.isSome_some]
          simp only [scanServices, hc, Bool.false_eq_true, if_false, hl, hbest,
            List.enumFrom, List.find?, hel, Option.bind, hbest₀, Option.map]

/-- C1: a full selection scan picks exactly the first backend in stored
(ascending-priority) order that is not already attempted, not currently
rate limited, and whose capability cache supports at least one option of
the fallback chain, resolved to the first chain option that backend
supports (`selectionSpec`); service names are unique per the
configuration's data model. -/
theorem selection_scan_picks_first_eligible (now : Time) (opts : List String)
    (st : RouterState) (attempted : List String)
    (hnodup : (st.services.map (fun c => c.name)).Nodup) :
    (scanOnce now opts st attempted).2.2 = selectionSpec now st attempted opts := by
  unfold scanOnce selectionSpec
  rw [scanServices_selection_aux now opts st attempted st.services 0 st attempted rfl
    (fun _ _ => rfl) (fun _ h => h) (fun nm h => Or.inl h) hnodup]
  rw [show st.services.enum = List.enumFrom 0 st.services from rfl]
  cases (List.enumFrom 0 st.services).find? (fun p => eligible now st attempted opts p.2) with
  | none => rfl
  | some p => cases p with | mk i cfg => rfl

/-- Chain instance for `selection_scan_picks_first_eligible`: with chain
`"a|b|c"` and two backends supporting only `"b"` and only `"c"`
respectively, the scan and the specification agree, and both select the
first backend with concrete model `"b"`. -/
theorem selection_scan_picks_first_eligible_witness :
    (scanOnce 100 (parseModelOptions "a|b|c") chainExampleState []).2.2 =
      selectionSpec 100 chainExampleState [] (parseModelOptions "a|b|c") ∧
    (scanOnce 100 (parseModelOptions "a|b|c") chainExampleState []).2.2 =
      some (0, "first", "b") :=
  ⟨selection_scan_picks_first_eligible 100 (parseModelOptions "a|b|c")
    chainExampleState [] (by decide), by decide⟩

/-- If every cache entry is fresh, the pre-request refresh is a no-op. -/
theorem refreshStaleCaches_fresh (o : String → Option (List ModelEntry)) (now : Time) :
    ∀ (l : List ServiceConfig) (st : RouterState),
      (∀ cfg ∈ l, isCacheValid now st cfg.name = true) →
      refreshStaleCaches o now st l = st := by
  intro l
  induction l with
  | nil => intro st _; rfl
  | cons cfg rest ih =>
    intro st h
    have hv := h cfg (List.mem_cons_self cfg rest)
    simp only [refreshStaleCaches, hv, if_true]
    exact ih st (fun c hc => h c (List.mem_cons_of_mem cfg hc))

/-- The scan walks straight past a block of already-attempted services. -/
theorem scanServices_skip_contained (now : Time) (opts : List String) :
    ∀ (pre l₂ : List ServiceConfig) (st : RouterState) (att : List String) (i : Nat),
      (∀ cfg ∈ pre, att.contains cfg.name = true) →
      scanServices now opts st att i (pre ++ l₂) =
        scanServices now opts st att (i + pre.length) l₂ := by
  intro pre
  induction pre with
  | nil => intro l₂ st att i _; simp
  | cons cfg rest ih =>
    intro l₂ st att i h
    have hc := h cfg (List.mem_cons_self cfg rest)
    simp only [List.cons_append, scanServices, hc, if_true, List.append_eq]
    rw [ih l₂ st att (i + 1) (fun c hcm => h c (List.mem_cons_of_mem cfg hcm))]
    congr 1
    simp [List.length_cons]
    omega

/-- A non-attempted head with no rate limit and a supported option is
selected at once, without touching the state. -/
theorem scanServices_select_head (now : Time) (opts : List String)
    (st : RouterState) (att : List String) (i : Nat) (cfg : ServiceConfig)
    (rest : List ServiceConfig) (m : String)
    (hnl : cfg.has_rate_limit = false)
    (hc : att.contains cfg.name = false)
    (hbest : getBestModelForService st.model_cache cfg.name opts = some m) :
    scanServices now opts st att i (cfg :: rest) = (st, att, some (i, cfg.name, m)) := by
  have hlim : isRateLimitedState now cfg st = (false, st) := by
    unfold isRateLimitedState
    simp [hnl]
  simp only [scanServices, hc, Bool.false_eq_true, if_false, hlim, hbest]

/-- The failure loop invariant: with every backend unlimited and
supporting an option, and every upstream call failing, the loop visits
the remaining services in order, records one failover per non-final
failure, and surfaces the last service's error. -/
theorem chatLoop_all_fail (call : String → String → CallResult)
    (err : String → HTTPError) (times : Nat → Time × Time)
    (opts : List String) (reqM : String)
    (hcall : ∀ nm m, call nm m = CallResult.httpError (err nm)) :
    ∀ (l₂ pre : List ServiceConfig) (st : RouterState) (lastE : Option HTTPError) (k : Nat),
      l₂ ≠ [] →
      st.services = pre ++ l₂ →
      ((pre ++ l₂).map (fun c => c.name)).Nodup →
      (∀ cfg ∈ st.services, cfg.has_rate_limit = false) →
      (∀ cfg ∈ st.services,
        (getBestModelForService st.model_cache cfg.name opts).isSome = true) →
      ∃ stF lastCfg, l₂.getLast? = some lastCfg ∧
        chatLoop call times opts reqM (l₂.length + 1) k st
            ((pre.map (fun c => c.name)).reverse) lastE =
          some (stF, Sum.inr (err lastCfg.name)) ∧
        stF.failover_count = st.failover_count + (l₂.length - 1) := by
  intro l₂
  induction l₂ with
  | nil => intro pre st lastE k hne; exact absurd rfl hne
  | cons cfgh rest ih =>
    intro pre st lastE k _ hserv hnd hnl hsup
    have hmemh : cfgh ∈ st.services := by
      rw [hserv]; exact List.mem_append_right pre (List.mem_cons_self cfgh rest)
    have hattlen : ((pre.map (fun c => c.name)).reverse).length = pre.length := by simp
    have hlen : ((pre.map (fun c => c.name)).reverse).length < st.services.length := by
      rw [hattlen, hserv]
      simp [List.length_append, List.length_cons]
    have hcontained : ∀ cfg ∈ pre,
        ((pre.map (fun c => c.name)).reverse).contains cfg.name = true := by
      intro c hcm
      refine List.elem_iff.mpr ?_
      rw [List.mem_reverse]
      exact List.mem_map_of_mem (fun c => c.name) hcm
    have hnmem : cfgh.name ∉ pre.map (fun c => c.name) := by
      rw [List.map_append, List.nodup_append] at hnd
      intro hmem
      exact hnd.2.2 hmem (by simp)
    have hnotin : ((pre.map (fun c => c.name)).reverse).contains cfgh.name = false := by
      cases hcc : ((pre.map (fun c => c.name)).reverse).contains cfgh.name
      · rfl
      · exact absurd (List.mem_reverse.mp (List.elem_iff.mp hcc)) hnmem
    obtain ⟨m, hm⟩ := Option.isSome_iff_exists.mp (hsup cfgh hmemh)
    have hscan : scanServices (times k).1 opts st ((pre.map (fun c => c.name)).reverse)
        0 st.services =
        (st, (pre.map (fun c => c.name)).reverse, some (0 + pre.length, cfgh.name, m)) := by
      rw [hserv,
        scanServices_skip_contained (times k).1 opts pre (cfgh :: rest) st
          ((pre.map (fun c => c.name)).reverse) 0 hcontained,
        scanServices_select_head (times k).1 opts st ((pre.map (fun c => c.name)).reverse)
          (0 + pre.length) cfgh rest m (hnl cfgh hmemh) hnotin hm]
    have hstep : chatLoop call times opts reqM ((cfgh :: rest).length + 1) k st
        ((pre.map (fun c => c.name)).reverse) lastE =
        chatLoop call times opts reqM (cfgh :: rest).length (k + 1)
          (if (cfgh.name :: (pre.map (fun c => c.name)).reverse).length <
              (failStep st cfgh.name (times k).1).services.length then
            failoverStep (failStep st cfgh.name (times k).1)
          else failStep st cfgh.name (times k).1)
          (cfgh.name :: (pre.map (fun c => c.name)).reverse) (some (err cfgh.name)) := by
      simp only [chatLoop]
      rw [if_pos hlen, hscan]
      simp only [hcall]
      rfl
    rw [hstep]
    cases rest with
    | nil =>
      -- the last service: no failover increment, loop exits and raises
      have hflen : ¬ ((cfgh.name :: (pre.map (fun c => c.name)).reverse).length <
          (failStep st cfgh.name (times k).1).services.length) := by
        show ¬ ((cfgh.name :: (pre.map (fun c => c.name)).reverse).length <
          st.services.length)
        rw [hserv]
        simp [List.length_append]
      rw [if_neg hflen]
      refine ⟨failStep st cfgh.name (times k).1, cfgh, ?_, ?_, ?_⟩
      · simp
      · rw [show ((cfgh :: ([] : List ServiceConfig)).length) = 0 + 1 from rfl]
        simp only [chatLoop]
        rw [if_neg hflen]
        rfl
      · rfl
    | cons r rs =>
      have hflen : (cfgh.name :: (pre.map (fun c => c.name)).reverse).length <
          (failStep st cfgh.name (times k).1).services.length := by
        show (cfgh.name :: (pre.map (fun c => c.name)).reverse).length <
          st.services.length
        rw [hserv]
        simp [List.length_append]
      rw [if_pos hflen]
      have hattEq : (((pre ++ [cfgh]).map (fun c => c.name)).reverse) =
          cfgh.name :: (pre.map (fun c => c.name)).reverse := by
        simp
      obtain ⟨stF, lastCfg, hlastq, heq, hfail⟩ :=
        ih (pre ++ [cfgh]) (failoverStep (failStep st cfgh.name (times k).1))
          (some (err cfgh.name)) (k + 1) (by simp)
          (by show st.services = _; rw [hserv]; simp)
          (by simpa using hnd)
          (fun cfg hcfg => hnl cfg hcfg)
          (fun cfg hcfg => hsup cfg hcfg)
      rw [hattEq] at heq
      refine ⟨stF, lastCfg, ?_, ?_, ?_⟩
      · rw [List.getLast?_cons_cons]
        exact hlastq
      · exact heq
      · rw [hfail]
        have hfo : (failoverStep (failStep st cfgh.name (times k).1)).failover_count =
            st.failover_count + 1 := rfl
        rw [hfo]
        simp only [List.length_cons]
        omega

/-- C3: when every backend is selected in turn and every upstream call
fails with an HTTP error, `chat_completion` raises the error recorded
from the last backend in priority order, and the global failover counter
rises by exactly `totalBackends - 1`.  The hypotheses set up that
execution: fresh caches (no refresh), no backend rate-limited (no
policy), every backend supporting an option of the chain, and an oracle
failing every call. -/
theorem chat_completion_all_upstream_fail
    (call : String → String → CallResult) (err : String → HTTPError)
    (lmo : String → Option (List ModelEntry)) (times : Nat → Time × Time)
    (st : RouterState) (reqModel : String) (lastCfg : ServiceConfig)
    (hlast : st.services.getLast? = some lastCfg)
    (hnd : (st.services.map (fun c => c.name)).Nodup)
    (hnl : ∀ cfg ∈ st.services, cfg.has_rate_limit = false)
    (hsup : ∀ cfg ∈ st.services,
      (getBestModelForService st.model_cache cfg.name
        (parseModelOptions reqModel)).isSome = true)
    (hfresh : ∀ cfg ∈ st.services, isCacheValid (times 0).1 st cfg.name = true)
    (hcall : ∀ nm m, call nm m = CallResult.httpError (err nm)) :
    ∃ stF, chatCompletion call lmo times st reqModel =
        some (stF, Sum.inr (err lastCfg.name)) ∧
      stF.failover_count = st.failover_count + (st.services.length - 1) := by
  have hne : st.services ≠ [] := by
    intro h
    rw [h] at hlast
    cases hlast
  have hrefresh : refreshStaleCaches lmo (times 0).1
      { st with request_count := st.request_count + 1 }
      ({ st with request_count := st.request_count + 1 } : RouterState).services =
      { st with request_count := st.request_count + 1 } :=
    refreshStaleCaches_fresh lmo (times 0).1 _ _ hfresh
  simp only [chatCompletion]
  rw [hrefresh]
  obtain ⟨stF, lastCfg', hlast', heq, hfail⟩ :=
    chatLoop_all_fail call err times (parseModelOptions reqModel) reqModel hcall
      st.services [] { st with request_count := st.request_count + 1 } none 0
      hne rfl hnd hnl hsup
  have hsame : lastCfg' = lastCfg := by
    rw [hlast] at hlast'
    exact (Option.some.inj hlast').symm
  exact ⟨stF, by rw [← hsame]; exact heq, hfail⟩

/-- Two-backend instance for `chat_completion_all_upstream_fail`: both
fail upstream, the second backend's error surfaces and the failover
counter rises by one. -/
theorem chat_completion_all_upstream_fail_witness :
    ∃ stF, chatCompletion failAllCall (fun _ => none) (fun _ => (100, 100))
        failAllExampleState "m" =
        some (stF, Sum.inr (failAllErr "q")) ∧
      stF.failover_count = failAllExampleState.failover_count +
        (failAllExampleState.services.length - 1) :=
  chat_completion_all_upstream_fail failAllCall failAllErr (fun _ => none)
    (fun _ => (100, 100)) failAllExampleState "m" ⟨"q", "ollama", 1, none, 60⟩
    (by decide) (by decide) (by decide) (by decide) (by decide) (fun _ _ => rfl)

/-- Pointwise-equal predicates give the same `all`. -/
theorem all_congr_of_mem {α : Type} (f g : α → Bool) :
    ∀ xs : List α, (∀ x ∈ xs, f x = g x) → xs.all f = xs.all g := by
  intro xs
  induction xs with
  | nil => intro _; rfl
  | cons y ys ih =>
    intro hfg
    simp only [List.all_cons, hfg y (List.mem_cons_self y ys)]
    rw [ih (fun z hz => hfg z (List.mem_cons_of_mem y hz))]

/-- The exhaustion probe answers exactly: every backend is attempted or
currently rate limited (each probe's trim leaves other backends'
verdicts unchanged; names unique). -/
theorem allRateLimitedCheck_eq_all (now : Time) :
    ∀ (l : List ServiceConfig) (st : RouterState) (att : List String),
      (l.map (fun c => c.name)).Nodup →
      (allRateLimitedCheck now st att l).1 =
        l.all (fun cfg => att.contains cfg.name || limitedNow now st cfg) := by
  intro l
  induction l with
  | nil => intro st att _; rfl
  | cons cfg rest ih =>
    intro st att hnd
    have hndtail : (rest.map (fun c => c.name)).Nodup := by
      rw [List.map_cons, List.nodup_cons] at hnd
      exact hnd.2
    have hne := name_ne_of_nodup cfg rest hnd
    by_cases hc : att.contains cfg.name
    · simp only [allRateLimitedCheck, hc, if_true, List.all_cons, Bool.true_or, Bool.true_and]
      exact ih st att hndtail
    · have hcf : att.contains cfg.name = false := by
        cases hcb : att.contains cfg.name
        · rfl
        · exact absurd hcb hc
      by_cases hl : (isRateLimitedState now cfg st).1
      · have hlt : limitedNow now st cfg = true := by
          rw [← isRateLimitedState_fst]; exact hl
        simp only [allRateLimitedCheck, hcf, Bool.false_eq_true, if_false, hl, if_true,
          List.all_cons, hlt, Bool.or_true, Bool.true_and]
        rw [ih (isRateLimitedState now cfg st).2 att hndtail]
        refine all_congr_of_mem _ _ rest (fun c hcm => ?_)
        rw [limitedNow_after_probe now now cfg c st (hne c hcm)]
      · have hplf : (isRateLimitedState now cfg st).1 = false := by
          cases hval : (isRateLimitedState now cfg st).1
          · rfl
          · exact absurd hval hl
        have hlf : limitedNow now st cfg = false := by
          rw [← isRateLimitedState_fst]; exact hplf
        simp only [allRateLimitedCheck, hcf, Bool.false_eq_true, if_false, hplf,
          List.all_cons, hlf, Bool.or_self, Bool.false_and]

/-- The selection scan never changes the service list. -/
theorem scanServices_services (now : Time) (opts : List String) :
    ∀ (l : List ServiceConfig) (st : RouterState) (att : List String) (i : Nat),
      (scanServices now opts st att i l).1.services = st.services := by
  intro l
  induction l with
  | nil => intro st att i; rfl
  | cons cfg rest ih =>
    intro st att i
    by_cases hc : att.contains cfg.name
    · simp only [scanServices, hc, if_true]
      exact ih st att (i + 1)
    · have hcf : att.contains cfg.name = false := by
        cases hcb : att.contains cfg.name
        · rfl
        · exact absurd hcb hc
      have hX : (bumpStat (isRateLimitedState now cfg st).2 cfg.name
          (fun s => { s with rate_limited := s.rate_limited + 1 })).services = st.services :=
        (isRateLimitedState_frame now cfg st).1
      by_cases hl : (isRateLimitedState now cfg st).1
      · simp only [scanServices, hcf, Bool.false_eq_true, if_false, hl, if_true]
        rw [ih _ att (i + 1)]
        split
        · exact hX
        · exact hX
      · have hplf : (isRateLimitedState now cfg st).1 = false := by
          cases hval : (isRateLimitedState now cfg st).1
          · rfl
          · exact absurd hval hl
        cases hbest : getBestModelForService (isRateLimitedState now cfg st).2.model_cache
            cfg.name opts with
        | none =>
          simp only [scanServices, hcf, Bool.false_eq_true, if_false, hplf, hbest]
          rw [ih _ (cfg.name :: att) (i + 1)]
          exact (isRateLimitedState_frame now cfg st).1
        | some m =>
          simp only [scanServices, hcf, Bool.false_eq_true, if_false, hplf, hbest]
          exact (isRateLimitedState_frame now cfg st).1

/-- C5: when a full selection scan selects no candidate, the loop's fate
is decided by the exhaustion probe: if every backend is attempted or
currently rate limited at the probe's instant, the request fails with the
429 `rate_limit_exceeded` error; otherwise the loop breaks and surfaces
`finalRaise` — the most recent recorded failure when one exists (third
conjunct), else the generic 503 `service_unavailable` error (fourth
conjunct). -/
theorem no_candidate_scan_outcome
    (fuel k : Nat) (times : Nat → Time × Time) (call : String → String → CallResult)
    (opts : List String) (reqM : String) (st : RouterState) (att : List String)
    (lastE : Option HTTPError)
    (hlen : att.length < st.services.length)
    (hnd : (st.services.map (fun c => c.name)).Nodup)
    (hscan : (scanOnce (times k).1 opts st att).2.2 = none) :
    ((st.services.all (fun cfg =>
        (scanOnce (times k).1 opts st att).2.1.contains cfg.name ||
        limitedNow (times k).2 (scanOnce (times k).1 opts st att).1 cfg)) = true →
      chatLoop call times opts reqM (fuel + 1) k st att lastE =
        some ((allRateLimitedCheck (times k).2 (scanOnce (times k).1 opts st att).1
            (scanOnce (times k).1 opts st att).2.1 st.services).2,
          Sum.inr (rateLimitExceededError
            (scanOnce (times k).1 opts st att).2.1.length st.services.length))) ∧
    ((st.services.all (fun cfg =>
        (scanOnce (times k).1 opts st att).2.1.contains cfg.name ||
        limitedNow (times k).2 (scanOnce (times k).1 opts st att).1 cfg)) = false →
      chatLoop call times opts reqM (fuel + 1) k st att lastE =
        some (finalRaise (allRateLimitedCheck (times k).2 (scanOnce (times k).1 opts st att).1
            (scanOnce (times k).1 opts st att).2.1 st.services).2
          (scanOnce (times k).1 opts st att).2.1 lastE)) ∧
    (∀ (st' : RouterState) (a : List String) (e : HTTPError),
      (finalRaise st' a (some e)).2 = Sum.inr e) ∧
    (∀ (st' : RouterState) (a : List String),
      (finalRaise st' a none).2 =
        Sum.inr (serviceUnavailableError a.length st'.services.length)) := by
  simp only [scanOnce] at hscan ⊢
  have hfr : (scanServices (times k).1 opts st att 0 st.services).1.services = st.services :=
    scanServices_services (times k).1 opts st.services st att 0
  refine ⟨?_, ?_, fun st' a e => rfl, fun st' a => rfl⟩
  · intro hall
    have hchk : (allRateLimitedCheck (times k).2
        (scanServices (times k).1 opts st att 0 st.services).1
        (scanServices (times k).1 opts st att 0 st.services).2.1 st.services).1 = true := by
      rw [allRateLimitedCheck_eq_all (times k).2 st.services
        (scanServices (times k).1 opts st att 0 st.services).1
        (scanServices (times k).1 opts st att 0 st.services).2.1 hnd]
      exact hall
    simp only [chatLoop]
    rw [if_pos hlen]
    simp only [hscan, hfr]
    rw [if_pos hchk]
  · intro hall
    have hchk : (allRateLimitedCheck (times k).2
        (scanServices (times k).1 opts st att 0 st.services).1
        (scanServices (times k).1 opts st att 0 st.services).2.1 st.services).1 = false := by
      rw [allRateLimitedCheck_eq_all (times k).2 st.services
        (scanServices (times k).1 opts st att 0 st.services).1
        (scanServices (times k).1 opts st att 0 st.services).2.1 hnd]
      exact hall
    simp only [chatLoop]
    rw [if_pos hlen]
    simp only [hscan, hfr]
    rw [if_neg (fun hcontra => Bool.false_ne_true (hchk ▸ hcontra))]

/-- Recovery instance for `no_candidate_scan_outcome`: the single backend
is rate limited at the scan instant 5 but no longer at the probe instant
20, so the loop breaks and — with no recorded failure — the generic 503
is surfaced through `finalRaise`. -/
theorem no_candidate_scan_outcome_witness :
    chatLoop (fun _ _ => CallResult.success) (fun _ => (5, 20)) ["m"] "m" 2 0
        recoveryExampleState [] none =
      some (finalRaise (allRateLimitedCheck 20
          (scanOnce 5 ["m"] recoveryExampleState []).1
          (scanOnce 5 ["m"] recoveryExampleState []).2.1
          recoveryExampleState.services).2
        (scanOnce 5 ["m"] recoveryExampleState []).2.1 none) :=
  (no_candidate_scan_outcome 1 0 (fun _ => (5, 20)) (fun _ _ => CallResult.success)
    ["m"] "m" recoveryExampleState [] none (by decide) (by decide) (by decide)).2.1
    (by decide)

/-- C7: on the upstream body `data: {"choices":[{"delta":{"content":"hi"}}]}`,
blank line, `data: [DONE]`, blank line (with fresh id `abc123` and clock
1700000000), the transcoder emits the transformed delta frame, the
forwarded blank line, and the literal DONE frame, then stops — the
trailing upstream blank line is never processed; restricted to SSE
frames, the output is exactly the transformed JSON delta frame followed
by the literal DONE frame. -/
theorem stream_two_frames :
    streamChatCompletionLines "m" "abc123" 1700000000
        ["data: \x7b\"choices\":[\x7b\"delta\":\x7b\"content\":\"hi\"\x7d\x7d]\x7d",
         "", "data: [DONE]", ""] =
      ["data: \x7b\"id\": \"chatcmpl-abc123\", \"object\": \"chat.completion.chunk\", \"created\": 1700000000, \"model\": \"m\", \"choices\": [\x7b\"index\": 0, \"delta\": \x7b\"content\": \"hi\"\x7d\x7d]\x7d\n\n",
       "\n", "data: [DONE]\n\n"] ∧
    (streamChatCompletionLines "m" "abc123" 1700000000
        ["data: \x7b\"choices\":[\x7b\"delta\":\x7b\"content\":\"hi\"\x7d\x7d]\x7d",
         "", "data: [DONE]", ""]).filter isSSEFrame =
      ["data: \x7b\"id\": \"chatcmpl-abc123\", \"object\": \"chat.completion.chunk\", \"created\": 1700000000, \"model\": \"m\", \"choices\": [\x7b\"index\": 0, \"delta\": \x7b\"content\": \"hi\"\x7d\x7d]\x7d\n\n",
       "data: [DONE]\n\n"] := by
  constructor
  · decide
  · decide

end LLMRouter
